import Mathlib

/-!
Verification of the library-management exercise (`src/exercises/src/project.py`).

The Python program is shallowly embedded: Python dicts become ordered
association lists (`List (String × α)` with Python `d[k] = v` semantics),
exceptions become `Option`/`Except`, JSON values become the `Value` type,
and the two JSON files become two optional in-state documents written by
`save`.  Every definition follows the corresponding Python function.
-/

set_option maxRecDepth 10000
set_option maxHeartbeats 1000000

/-- Python exceptions that the program can raise. -/
inductive PyErr where
  | valueError
  | attributeError
  | keyError
deriving DecidableEq

/-- JSON values appearing in this program's documents: strings, booleans,
and lists of strings (the `borrowed_books` field). -/
inductive Value where
  | str (s : String)
  | bool (b : Bool)
  | strList (l : List String)
deriving DecidableEq

/-- A JSON object / Python dict with `Value` values. -/
abbrev Dict := List (String × Value)

/-- Python dict lookup `d[k]` (first matching key; Python keys are unique). -/
def dictGet? {α : Type} : List (String × α) → String → Option α
  | [], _ => none
  | (k', v) :: t, k => if k' = k then some v else dictGet? t k

/-- Python dict assignment `d[k] = v`: replace in place if the key is
present (keeping its position), otherwise append at the end. -/
def dictSet {α : Type} : List (String × α) → String → α → List (String × α)
  | [], k, v => [(k, v)]
  | (k', v') :: t, k, v => if k' = k then (k, v) :: t else (k', v') :: dictSet t k v

/-- Python `k in d` for a dict. -/
def dictMem {α : Type} (d : List (String × α)) (k : String) : Bool :=
  (dictGet? d k).isSome

/-- The keys of a dict, in order (`list(d.keys())`). -/
def keysOf {α : Type} (d : List (String × α)) : List String :=
  d.map (·.1)

/-! ### Decimal formatting and parsing (`f"{n:04d}"` and `int(s)`) -/

/-- The character for a single decimal digit. -/
def digitChar (d : Nat) : Char := Char.ofNat (48 + d)

/-- Decimal rendering of a natural number, most significant digit first
(the digits of Python's decimal formatting). -/
def toDecimal (n : Nat) : List Char :=
  if _h : n < 10 then [digitChar n]
  else toDecimal (n / 10) ++ [digitChar (n % 10)]
termination_by n
decreasing_by exact Nat.div_lt_self (by omega) (by omega)

/-- The characters of Python `f"{n:04d}"`: the decimal rendering of `n`,
left-padded with zeros to at least four characters. -/
def padChars (n : Nat) : List Char :=
  List.replicate (4 - (toDecimal n).length) '0' ++ toDecimal n

/-- Python `f"{n:04d}"` as a string. -/
def pad4 (n : Nat) : String := String.mk (padChars n)

/-- `'0'` through `'9'`. -/
def isDigitChar (c : Char) : Bool := 48 ≤ c.toNat && c.toNat ≤ 57

/-- Value of a decimal digit string, accumulated left to right. -/
def valFrom (a : Nat) : List Char → Nat
  | [] => a
  | c :: cs => valFrom (a * 10 + (c.toNat - 48)) cs

/-- Model of Python `int(s)` restricted to plain digit strings (the only
shape this program feeds it): the decimal value, or an error (`ValueError`)
when the string is empty or holds a non-digit. -/
def parseNat? (s : String) : Option Nat :=
  if s.data ≠ [] ∧ s.data.all isDigitChar then some (valFrom 0 s.data) else none

/-- Python `s[-4:]`: the last four characters (the whole string when it is
shorter than four characters). -/
def lastFour (s : String) : String :=
  String.mk (s.data.drop (s.data.length - 4))

/-! ### `generate_id` -/

/-- `generate_id(prefix, existing_ids)` from `project.py`.  The Python
function first sorts `existing_ids` **in place**; the second component of
the result is the final contents of the caller's list after the call.  The
first component is the returned id, or `none` when `int()` raises. -/
def generate_id (pre : String) (existing_ids : List String) : Option String × List String :=
  let sorted := List.insertionSort (· ≤ ·) existing_ids
  match sorted.getLast? with
  | none => (some (pre ++ "_" ++ pad4 1), sorted)
  | some last =>
    match parseNat? (lastFour last) with
    | none => (none, sorted)
    | some m => (some (pre ++ "_" ++ pad4 (m + 1)), sorted)

/-! ### `search_items` -/

/-- Python `x.lower()`: defined for strings; any other value (a boolean or
a list) has no `lower` attribute, so the call raises `AttributeError`. -/
def lowerOf : Value → Option String
  | .str s => some s.toLower
  | _ => none

/-- The inner loop of `search_items` over the criteria for one item,
carrying the `match` flag.  An absent key just clears the flag; a present
key whose value is not a string raises when `.lower()` is called. -/
def matchItemGo (item : Dict) : Bool → List (String × String) → Except PyErr Bool
  | acc, [] => .ok acc
  | acc, (k, v) :: rest =>
    match dictGet? item k with
    | none => matchItemGo item false rest
    | some x =>
      match lowerOf x with
      | none => .error .attributeError
      | some lx => matchItemGo item (acc && (lx = v.toLower : Bool)) rest

/-- `search_items(items, **criteria)` from `project.py`: collect, in order,
the items matching every criterion case-insensitively. -/
def search_items (criteria : List (String × String)) : List Dict → Except PyErr (List Dict)
  | [] => .ok []
  | item :: rest => do
    let m ← matchItemGo item true criteria
    let r ← search_items criteria rest
    .ok (if m then item :: r else r)

/-! ### `Book` -/

structure Book where
  book_id : String
  title : String
  author : String
  genre : String
  available : Bool
deriving DecidableEq

namespace Book

/-- The class attribute `Book.GENRES`. -/
def GENRES : List String := ["Fiction", "Non-Fiction", "Science", "History", "Technology"]

/-- `Book.__init__`: validates the genre against `GENRES`; an invalid
genre raises `ValueError` and no object is produced. -/
def init (book_id title author genre : String) (available : Bool) : Option Book :=
  if genre ∈ GENRES then some ⟨book_id, title, author, genre, available⟩ else none

/-- `Book.to_dict`. -/
def to_dict (b : Book) : Dict :=
  [("book_id", .str b.book_id), ("title", .str b.title), ("author", .str b.author),
   ("genre", .str b.genre), ("available", .bool b.available)]

/-- `Book.from_dict`: reads the five fields back and re-runs the
constructor (hence re-validates the genre).  A missing key or a value of
the wrong shape fails. -/
def from_dict (d : Dict) : Option Book :=
  match dictGet? d "book_id", dictGet? d "title", dictGet? d "author",
      dictGet? d "genre", dictGet? d "available" with
  | some (.str i), some (.str t), some (.str a), some (.str g), some (.bool av) =>
      init i t a g av
  | _, _, _, _, _ => none

end Book

/-! ### `Borrower` -/

structure Borrower where
  borrower_id : String
  name : String
  email : String
  borrowed_books : List String
deriving DecidableEq

namespace Borrower

/-- The class attribute `Borrower.MAX_BOOKS`. -/
def MAX_BOOKS : Nat := 3

/-- `Borrower.__init__`; the Python body is
`self.borrowed_books = borrowed_books or []`, which turns both `None`
(the default) and an empty list into a fresh empty list. -/
def init (borrower_id name email : String) (borrowed_books : Option (List String)) : Borrower :=
  { borrower_id := borrower_id, name := name, email := email,
    borrowed_books := match borrowed_books with
      | none => []
      | some l => if l.isEmpty then [] else l }

/-- `Borrower.can_borrow`. -/
def can_borrow (br : Borrower) : Bool :=
  br.borrowed_books.length < MAX_BOOKS

/-- `Borrower.borrow_book`: append if under the limit, returning whether
the append happened together with the updated object. -/
def borrow_book (br : Borrower) (book_id : String) : Bool × Borrower :=
  if br.can_borrow then (true, { br with borrowed_books := br.borrowed_books ++ [book_id] })
  else (false, br)

/-- `Borrower.return_book`: `list.remove` drops the first occurrence. -/
def return_book (br : Borrower) (book_id : String) : Bool × Borrower :=
  if book_id ∈ br.borrowed_books then
    (true, { br with borrowed_books := br.borrowed_books.erase book_id })
  else (false, br)

/-- `Borrower.to_dict`. -/
def to_dict (br : Borrower) : Dict :=
  [("borrower_id", .str br.borrower_id), ("name", .str br.name),
   ("email", .str br.email), ("borrowed_books", .strList br.borrowed_books)]

/-- `Borrower.from_dict`. -/
def from_dict (d : Dict) : Option Borrower :=
  match dictGet? d "borrower_id", dictGet? d "name", dictGet? d "email",
      dictGet? d "borrowed_books" with
  | some (.str i), some (.str n), some (.str e), some (.strList l) =>
      some (init i n e (some l))
  | _, _, _, _ => none

end Borrower

/-! ### `Library`

The in-memory state together with the two JSON documents; `save` writes
the serialized collections into the document slots, exactly as the Python
`save` overwrites the two files. -/

structure LibState where
  name : String
  books : List (String × Book)
  borrowers : List (String × Borrower)
  books_file : Option (List (String × Dict))
  borrowers_file : Option (List (String × Dict))
deriving DecidableEq

namespace Library

/-- `Library.save`: full-collection overwrite of both documents. -/
def save (s : LibState) : LibState :=
  { s with
    books_file := some (s.books.map (fun p => (p.1, p.2.to_dict))),
    borrowers_file := some (s.borrowers.map (fun p => (p.1, p.2.to_dict))) }

/-- `Library.add_book`: generate an id from the current book keys, run the
`Book` constructor (which may raise), insert, save.  On an exception the
state is unchanged (the raise happens before the insertion). -/
def add_book (s : LibState) (title author genre : String) : Except PyErr (Book × LibState) :=
  match (generate_id "BOOK" (keysOf s.books)).1 with
  | none => .error .valueError
  | some bid =>
    match Book.init bid title author genre true with
    | none => .error .valueError
    | some book =>
      .ok (book, save { s with books := dictSet s.books bid book })

/-- `Library.add_borrower`. -/
def add_borrower (s : LibState) (name email : String) : Except PyErr (Borrower × LibState) :=
  match (generate_id "USER" (keysOf s.borrowers)).1 with
  | none => .error .valueError
  | some rid =>
    let br := Borrower.init rid name email none
    .ok (br, save { s with borrowers := dictSet s.borrowers rid br })

/-- `Library.checkout_book`: the returned pair is (return value, state
after the call). -/
def checkout_book (s : LibState) (book_id borrower_id : String) : Bool × LibState :=
  match dictGet? s.books book_id with
  | none => (false, s)
  | some b =>
    if !b.available then (false, s)
    else
      match dictGet? s.borrowers borrower_id with
      | none => (false, s)
      | some br =>
        if !br.can_borrow then (false, s)
        else
          (true, save { s with
            books := dictSet s.books book_id { b with available := false },
            borrowers := dictSet s.borrowers borrower_id (br.borrow_book book_id).2 })

/-- `Library.return_book`. -/
def return_book (s : LibState) (book_id borrower_id : String) : Bool × LibState :=
  match dictGet? s.books book_id, dictGet? s.borrowers borrower_id with
  | some b, some br =>
    if book_id ∈ br.borrowed_books then
      (true, save { s with
        books := dictSet s.books book_id { b with available := true },
        borrowers := dictSet s.borrowers borrower_id (br.return_book book_id).2 })
    else (false, s)
  | _, _ => (false, s)

/-- `Library.search_books`: serialize every book and run `search_items`. -/
def search_books (s : LibState) (criteria : List (String × String)) : Except PyErr (List Dict) :=
  search_items criteria (s.books.map (fun p => p.2.to_dict))

end Library

/-- One public `Library` operation (the four mutators). -/
inductive Op where
  | addBook (title author genre : String)
  | addBorrower (name email : String)
  | checkout (book_id borrower_id : String)
  | ret (book_id borrower_id : String)

/-- Run one operation; a raised exception leaves the state unchanged. -/
def applyOp (s : LibState) : Op → LibState
  | .addBook t a g =>
    match Library.add_book s t a g with
    | .ok (_, s') => s'
    | .error _ => s
  | .addBorrower n e =>
    match Library.add_borrower s n e with
    | .ok (_, s') => s'
    | .error _ => s
  | .checkout bid rid => (Library.checkout_book s bid rid).2
  | .ret bid rid => (Library.return_book s bid rid).2

/-- Run a sequence of operations. -/
def applyOps (s : LibState) : List Op → LibState
  | [] => s
  | op :: rest => applyOps (applyOp s op) rest

/-- A checkout or return call (the sequences claim C2 quantifies over). -/
inductive CROp where
  | co (book_id borrower_id : String)
  | ret (book_id borrower_id : String)

/-- Run a sequence of checkout/return calls. -/
def applyCR (s : LibState) : List CROp → LibState
  | [] => s
  | .co bid rid :: rest => applyCR (Library.checkout_book s bid rid).2 rest
  | .ret bid rid :: rest => applyCR (Library.return_book s bid rid).2 rest

/-! ### The load path (claim C1)

`Library.load` assigns `json.load(f)` — a dict of raw dicts — directly to
`self.books` / `self.borrowers`.  Entries of a collection are therefore
either proper objects (as produced by `add_book`/`add_borrower`) or raw
mappings (as produced by `load`); attribute access on a raw mapping raises
`AttributeError`. -/

inductive BookSlot where
  | obj (b : Book)
  | raw (d : Dict)
deriving DecidableEq

inductive BorrowerSlot where
  | obj (br : Borrower)
  | raw (d : Dict)
deriving DecidableEq

/-- Python attribute access `x.available` on an entry of `self.books`. -/
def BookSlot.availableAttr : BookSlot → Except PyErr Bool
  | .obj b => .ok b.available
  | .raw _ => .error .attributeError

/-- Python method access `x.can_borrow()` on an entry of `self.borrowers`. -/
def BorrowerSlot.canBorrowAttr : BorrowerSlot → Except PyErr Bool
  | .obj br => .ok br.can_borrow
  | .raw _ => .error .attributeError

namespace Library

/-- The books half of `Library.load`: an absent file leaves the collection
empty (`FileNotFoundError: pass`); a present one is `json.load`ed, giving
raw mappings. -/
def load_books : Option (List (String × Dict)) → List (String × BookSlot)
  | none => []
  | some doc => doc.map (fun p => (p.1, .raw p.2))

/-- The borrowers half of `Library.load`. -/
def load_borrowers : Option (List (String × Dict)) → List (String × BorrowerSlot)
  | none => []
  | some doc => doc.map (fun p => (p.1, .raw p.2))

/-- `Library.checkout_book` run on collections as they stand right after
`load`: the membership tests work on any dict, but the first attribute
access on a raw mapping raises. -/
def checkout_book_loaded (books : List (String × BookSlot))
    (borrowers : List (String × BorrowerSlot)) (book_id borrower_id : String) :
    Except PyErr Bool :=
  match dictGet? books book_id with
  | none => .ok false
  | some slot => do
    let av ← slot.availableAttr
    if !av then .ok false
    else
      match dictGet? borrowers borrower_id with
      | none => .ok false
      | some bslot => do
        let cb ← bslot.canBorrowAttr
        if !cb then .ok false else .ok true

end Library

/-! ### Library of concrete states used by witnesses and counterexamples -/

/-- A concrete available book. -/
def dune : Book :=
  { book_id := "BOOK_0001", title := "Dune", author := "Herbert",
    genre := "Science", available := true }

/-- A concrete borrower with an empty borrowed list. -/
def alice : Borrower :=
  { borrower_id := "USER_0001", name := "Alice", email := "a@x.com",
    borrowed_books := [] }

/-- A concrete borrower currently holding `BOOK_0001`. -/
def bob : Borrower :=
  { borrower_id := "USER_0002", name := "Bob", email := "b@x.com",
    borrowed_books := ["BOOK_0001"] }

/-- A concrete library: one available book, one borrower. -/
def lib1 : LibState :=
  { name := "L", books := [("BOOK_0001", dune)], borrowers := [("USER_0001", alice)],
    books_file := none, borrowers_file := none }

/-- A concrete library where `BOOK_0001` is checked out to Bob, and Alice
holds nothing. -/
def lib2 : LibState :=
  { name := "L", books := [("BOOK_0001", { dune with available := false })],
    borrowers := [("USER_0001", alice), ("USER_0002", bob)],
    books_file := none, borrowers_file := none }

/-- How many borrowers' `borrowed_books` lists contain `bid`. -/
def holdsCount (borrowers : List (String × Borrower)) (bid : String) : Nat :=
  borrowers.countP (fun q => decide (bid ∈ q.2.borrowed_books))

/-- The inductive state invariant of a well-formed library: keys are
unique, a book is held by exactly one borrower when unavailable and by
none when available, and no borrowed list repeats an id. -/
def LibInv (s : LibState) : Prop :=
  (keysOf s.books).Nodup ∧ (keysOf s.borrowers).Nodup ∧
  (∀ p ∈ s.books, holdsCount s.borrowers p.1 = if p.2.available then 0 else 1) ∧
  (∀ q ∈ s.borrowers, q.2.borrowed_books.Nodup)

/-- Every borrower is within the 3-book limit. -/
def maxLenOK (s : LibState) : Prop :=
  ∀ q ∈ s.borrowers, q.2.borrowed_books.length ≤ Borrower.MAX_BOOKS

/-- A borrower at the 3-book limit, and a library containing them. -/
def carol : Borrower :=
  { borrower_id := "USER_0003", name := "Carol", email := "c@x.com",
    borrowed_books := ["BOOK_0002", "BOOK_0003", "BOOK_0004"] }

/-- A library whose only borrower already holds three books. -/
def lib3 : LibState :=
  { name := "L", books := [("BOOK_0001", dune)], borrowers := [("USER_0003", carol)],
    books_file := none, borrowers_file := none }

/-- The four failure conditions of `checkoutBook` named by the spec: book
id unknown, book not available, borrower id unknown, borrower at the
3-book limit. -/
def checkoutFails (s : LibState) (bid rid : String) : Prop :=
  dictGet? s.books bid = none ∨
  (dictGet? s.books bid).any (fun b => !b.available) = true ∨
  dictGet? s.borrowers rid = none ∨
  (dictGet? s.borrowers rid).any (fun br => !br.can_borrow) = true

/-- The failure conditions of `returnBook`: book id unknown, borrower id
unknown, or the book id not in that borrower's borrowed list. -/
def returnFails (s : LibState) (bid rid : String) : Prop :=
  dictGet? s.books bid = none ∨
  dictGet? s.borrowers rid = none ∨
  (dictGet? s.borrowers rid).any (fun br => !decide (bid ∈ br.borrowed_books)) = true

/-- A serialized book matches the criteria: every criterion key is
present, holds a string, and agrees case-insensitively. -/
def matchesB (item : Dict) (criteria : List (String × String)) : Bool :=
  criteria.all (fun c =>
    match dictGet? item c.1 with
    | some (.str v) => v.toLower = c.2.toLower
    | _ => false)

/-- All ids are of the shape `prefix_dddd` with a 4-digit zero-padded
decimal suffix. -/
def wfIds (pre : String) (ids : List String) : Prop :=
  ∀ i ∈ ids, ∃ n, n < 10000 ∧ i = pre ++ "_" ++ pad4 n

/-! ### Dictionary lemmas -/

theorem dictGet?_dictSet_self {α : Type} (d : List (String × α)) (k : String) (v : α) :
    dictGet? (dictSet d k v) k = some v := by
  induction d with
  | nil => simp [dictSet, dictGet?]
  | cons p t ih =>
    obtain ⟨k0, v0⟩ := p
    by_cases h : k0 = k
    · simp [dictSet, dictGet?, h]
    · simp [dictSet, dictGet?, h, ih]

theorem dictGet?_dictSet_ne {α : Type} (d : List (String × α)) {k k' : String} (v : α)
    (h : k' ≠ k) : dictGet? (dictSet d k v) k' = dictGet? d k' := by
  induction d with
  | nil => simp [dictSet, dictGet?, Ne.symm h]
  | cons p t ih =>
    obtain ⟨k0, v0⟩ := p
    by_cases h0 : k0 = k
    · subst h0
      simp [dictSet, dictGet?, Ne.symm h]
    · by_cases h0' : k0 = k'
      · simp [dictSet, dictGet?, h0, h0', h]
      · simp [dictSet, dictGet?, h0, h0', ih]

theorem mem_of_dictGet?_eq_some {α : Type} {d : List (String × α)} {k : String} {v : α}
    (h : dictGet? d k = some v) : (k, v) ∈ d := by
  induction d with
  | nil => simp [dictGet?] at h
  | cons p t ih =>
    obtain ⟨k0, v0⟩ := p
    by_cases h0 : k0 = k
    · rw [show dictGet? ((k0, v0) :: t) k = if k0 = k then some v0 else dictGet? t k from rfl,
        if_pos h0] at h
      injection h with h
      subst h0 h
      exact List.mem_cons_self _ _
    · rw [show dictGet? ((k0, v0) :: t) k = if k0 = k then some v0 else dictGet? t k from rfl,
        if_neg h0] at h
      exact List.mem_cons_of_mem _ (ih h)

theorem mem_dictSet {α : Type} {d : List (String × α)} {k : String} {v : α} {p : String × α}
    (hp : p ∈ dictSet d k v) : p = (k, v) ∨ p ∈ d := by
  induction d with
  | nil => simpa [dictSet] using hp
  | cons q t ih =>
    obtain ⟨k0, v0⟩ := q
    by_cases h0 : k0 = k
    · simp only [dictSet, h0, if_pos, List.mem_cons] at hp
      rcases hp with hp | hp
      · exact Or.inl hp
      · exact Or.inr (List.mem_cons_of_mem _ hp)
    · simp only [dictSet, h0, if_neg, if_false, List.mem_cons] at hp
      rcases hp with hp | hp
      · exact Or.inr (by simp [hp])
      · rcases ih hp with h | h
        · exact Or.inl h
        · exact Or.inr (List.mem_cons_of_mem _ h)

theorem mem_dictSet_of_nodup {α : Type} {d : List (String × α)} (hd : (keysOf d).Nodup)
    {k : String} {v : α} {p : String × α} (hp : p ∈ dictSet d k v) :
    p = (k, v) ∨ (p ∈ d ∧ p.1 ≠ k) := by
  induction d with
  | nil => simpa [dictSet] using hp
  | cons q t ih =>
    obtain ⟨k0, v0⟩ := q
    simp only [keysOf, List.map_cons, List.nodup_cons] at hd
    by_cases h0 : k0 = k
    · subst h0
      simp only [dictSet, if_pos, List.mem_cons] at hp
      rcases hp with hp | hp
      · exact Or.inl hp
      · refine Or.inr ⟨List.mem_cons_of_mem _ hp, ?_⟩
        intro hk
        exact hd.1 (hk ▸ List.mem_map_of_mem _ hp)
    · simp only [dictSet, h0, if_neg, if_false, List.mem_cons] at hp
      rcases hp with hp | hp
      · exact Or.inr ⟨by simp [hp], by simp [hp, h0]⟩
      · rcases ih hd.2 hp with h | h
        · exact Or.inl h
        · exact Or.inr ⟨List.mem_cons_of_mem _ h.1, h.2⟩

theorem keysOf_dictSet_of_get {α : Type} {d : List (String × α)} {k : String} {w : α}
    (hk : dictGet? d k = some w) (v : α) : keysOf (dictSet d k v) = keysOf d := by
  induction d with
  | nil => simp [dictGet?] at hk
  | cons q t ih =>
    obtain ⟨k0, v0⟩ := q
    by_cases h0 : k0 = k
    · simp [dictSet, h0, keysOf]
    · rw [show dictGet? ((k0, v0) :: t) k = if k0 = k then some v0 else dictGet? t k from rfl,
        if_neg h0] at hk
      have := ih hk
      simp only [dictSet, h0, if_neg, if_false, keysOf, List.map_cons] at this ⊢
      rw [show (List.map (fun x => x.1) (dictSet t k v) : List String) = List.map (·.1) t
        from this]

theorem countP_dictSet_of_get {α : Type} {d : List (String × α)} {k : String} {w : α}
    (hw : dictGet? d k = some w) (v : α) (q : α → Bool) :
    (dictSet d k v).countP (fun p => q p.2) + (if q w then 1 else 0)
      = d.countP (fun p => q p.2) + (if q v then 1 else 0) := by
  induction d with
  | nil => simp [dictGet?] at hw
  | cons x t ih =>
    obtain ⟨k0, v0⟩ := x
    by_cases h0 : k0 = k
    · rw [show dictGet? ((k0, v0) :: t) k = if k0 = k then some v0 else dictGet? t k from rfl,
        if_pos h0] at hw
      injection hw with hw
      subst hw
      simp only [dictSet, h0, if_pos, List.countP_cons]
      by_cases hqv : q v <;> by_cases hqw : q v0 <;> simp [hqv, hqw]
    · rw [show dictGet? ((k0, v0) :: t) k = if k0 = k then some v0 else dictGet? t k from rfl,
        if_neg h0] at hw
      have := ih hw
      simp only [dictSet, h0, if_neg, if_false, List.countP_cons]
      by_cases hq0 : q v0 <;> simp [hq0] <;> omega

/-! ### Claims C2 and C5: the cross-entity invariant and the 3-book limit -/

theorem inv_checkout (s : LibState) (h : LibInv s) (bid rid : String) :
    LibInv (Library.checkout_book s bid rid).2 := by
  obtain ⟨hbk, hbr, hcnt, hnd⟩ := h
  rcases hb : dictGet? s.books bid with _ | b
  · simp only [Library.checkout_book, hb]
    exact ⟨hbk, hbr, hcnt, hnd⟩
  · by_cases hav : b.available
    · rcases hr : dictGet? s.borrowers rid with _ | br
      · simp only [Library.checkout_book, hb, hr, hav]
        exact ⟨hbk, hbr, hcnt, hnd⟩
      · by_cases hcb : br.can_borrow
        · have hmemB : (bid, b) ∈ s.books := mem_of_dictGet?_eq_some hb
          have hmemR : (rid, br) ∈ s.borrowers := mem_of_dictGet?_eq_some hr
          have hcount0 : holdsCount s.borrowers bid = 0 := by
            have := hcnt _ hmemB
            simpa [hav] using this
          have hnotin : ∀ q ∈ s.borrowers, bid ∉ q.2.borrowed_books := by
            intro q hq
            have := List.countP_eq_zero.mp hcount0 q hq
            simpa using this
          simp only [Library.checkout_book, hb, hr, hav, hcb, Bool.not_true,
            Bool.false_eq_true, if_false, eq_self_iff_true, if_true,
            Borrower.borrow_book, Library.save]
          refine ⟨?_, ?_, ?_, ?_⟩
          · rw [keysOf_dictSet_of_get hb]
            exact hbk
          · rw [keysOf_dictSet_of_get hr]
            exact hbr
          · intro p hp
            rcases mem_dictSet_of_nodup hbk hp with hp | ⟨hp, hne⟩
            · subst hp
              have key := countP_dictSet_of_get hr
                { br with borrowed_books := br.borrowed_books ++ [bid] }
                (fun w => decide (bid ∈ w.borrowed_books))
              have h1 : decide (bid ∈ br.borrowed_books) = false := by
                simp [hnotin _ hmemR]
              have h2 : decide (bid ∈ br.borrowed_books ++ [bid]) = true := by simp
              simp only [h1, h2, if_pos, if_neg, Bool.false_eq_true, if_false] at key
              simp only [holdsCount, Bool.false_eq_true, if_false] at hcount0 ⊢
              omega
            · have key := countP_dictSet_of_get hr
                { br with borrowed_books := br.borrowed_books ++ [bid] }
                (fun w => decide (p.1 ∈ w.borrowed_books))
              simp only [List.mem_append, List.mem_singleton, hne, or_false] at key
              have := hcnt p hp
              simp only [holdsCount] at this ⊢
              omega
          · intro q hq
            rcases mem_dictSet_of_nodup hbr hq with hq | ⟨hq, _⟩
            · subst hq
              have h1 := hnd _ hmemR
              have h2 := hnotin _ hmemR
              simpa using List.Nodup.append h1 (List.nodup_singleton bid)
                (by simpa using h2)
            · exact hnd _ hq
        · have hcb' : br.can_borrow = false := by simpa using hcb
          simp only [Library.checkout_book, hb, hr, hav, hcb', Bool.not_false,
            eq_self_iff_true, if_true]
          exact ⟨hbk, hbr, hcnt, hnd⟩
    · have hav' : b.available = false := by simpa using hav
      simp only [Library.checkout_book, hb, hav', Bool.not_false, eq_self_iff_true,
        if_true]
      exact ⟨hbk, hbr, hcnt, hnd⟩

theorem inv_return (s : LibState) (h : LibInv s) (bid rid : String) :
    LibInv (Library.return_book s bid rid).2 := by
  obtain ⟨hbk, hbr, hcnt, hnd⟩ := h
  rcases hb : dictGet? s.books bid with _ | b
  · simp only [Library.return_book, hb]
    exact ⟨hbk, hbr, hcnt, hnd⟩
  · rcases hr : dictGet? s.borrowers rid with _ | br
    · simp only [Library.return_book, hb, hr]
      exact ⟨hbk, hbr, hcnt, hnd⟩
    · by_cases hm : bid ∈ br.borrowed_books
      · have hmemB : (bid, b) ∈ s.books := mem_of_dictGet?_eq_some hb
        have hmemR : (rid, br) ∈ s.borrowers := mem_of_dictGet?_eq_some hr
        have hcnt_bid := hcnt _ hmemB
        have hpos : 0 < holdsCount s.borrowers bid :=
          List.countP_pos_iff.mpr ⟨(rid, br), hmemR, by simpa using hm⟩
        have hav : b.available = false := by
          rcases hav : b.available with _ | _
          · rfl
          · rw [hav] at hcnt_bid
            simp only [if_pos] at hcnt_bid
            omega
        have hcount1 : holdsCount s.borrowers bid = 1 := by
          rw [hav] at hcnt_bid
          simpa using hcnt_bid
        have hndbr := hnd _ hmemR
        simp only [Library.return_book, hb, hr, hm, if_pos, Borrower.return_book,
          Library.save, if_true]
        refine ⟨?_, ?_, ?_, ?_⟩
        · rw [keysOf_dictSet_of_get hb]
          exact hbk
        · rw [keysOf_dictSet_of_get hr]
          exact hbr
        · intro p hp
          rcases mem_dictSet_of_nodup hbk hp with hp | ⟨hp, hne⟩
          · subst hp
            have key := countP_dictSet_of_get hr
              { br with borrowed_books := br.borrowed_books.erase bid }
              (fun w => decide (bid ∈ w.borrowed_books))
            have h1 : decide (bid ∈ br.borrowed_books) = true := by simpa using hm
            have h2 : decide (bid ∈ br.borrowed_books.erase bid) = false := by
              simp only [decide_eq_false_iff_not]
              intro hcontra
              exact ((hndbr.mem_erase_iff).mp hcontra).1 rfl
            simp only [h1, h2, if_pos, Bool.false_eq_true, if_false] at key
            simp only [holdsCount, eq_self_iff_true, if_true] at hcount1 ⊢
            omega
          · have key := countP_dictSet_of_get hr
              { br with borrowed_books := br.borrowed_books.erase bid }
              (fun w => decide (p.1 ∈ w.borrowed_books))
            simp only [List.mem_erase_of_ne hne] at key
            have := hcnt p hp
            simp only [holdsCount] at this ⊢
            omega
        · intro q hq
          rcases mem_dictSet_of_nodup hbr hq with hq | ⟨hq, _⟩
          · subst hq
            exact hndbr.erase bid
          · exact hnd _ hq
      · simp only [Library.return_book, hb, hr, hm, if_neg, if_false]
        exact ⟨hbk, hbr, hcnt, hnd⟩


/-- C2: starting from a well-formed library, after any sequence of
`checkout_book`/`return_book` calls, a book's `available` flag is `false`
exactly when its id is in exactly one borrower's borrowed list. -/
theorem claim_C2 (s : LibState) (h : LibInv s) (ops : List CROp) :
    ∀ p ∈ (applyCR s ops).books,
      (p.2.available = false ↔ holdsCount (applyCR s ops).borrowers p.1 = 1) := by
  have hInv : LibInv (applyCR s ops) := by
    induction ops generalizing s with
    | nil => exact h
    | cons op rest ih =>
      cases op with
      | co bid rid => exact ih _ (inv_checkout s h bid rid)
      | ret bid rid => exact ih _ (inv_return s h bid rid)
  obtain ⟨_, _, hcnt, _⟩ := hInv
  intro p hp
  have key := hcnt p hp
  constructor
  · intro hfalse
    rw [hfalse] at key
    simpa using key
  · intro h1
    rcases hav : p.2.available with _ | _
    · rfl
    · rw [hav] at key
      simp only [if_pos] at key
      omega

/-- Witness for C2: after a concrete checkout-then-return run on `lib1`,
the book `BOOK_0001` (available again) is held by no borrower. -/
theorem claim_C2_witness :
    dune.available = false ↔
      holdsCount (applyCR lib1 [CROp.co "BOOK_0001" "USER_0001",
        CROp.ret "BOOK_0001" "USER_0001"]).borrowers "BOOK_0001" = 1 :=
  claim_C2 lib1 (by unfold LibInv holdsCount keysOf; decide)
    [CROp.co "BOOK_0001" "USER_0001", CROp.ret "BOOK_0001" "USER_0001"]
    ("BOOK_0001", dune) (by decide)

theorem maxLenOK_applyOp (s : LibState) (h : maxLenOK s) (op : Op) :
    maxLenOK (applyOp s op) := by
  cases op with
  | addBook t a g =>
    rcases hgen : (generate_id "BOOK" (keysOf s.books)).1 with _ | bid
    · simpa only [applyOp, Library.add_book, hgen] using h
    · rcases hinit : Book.init bid t a g true with _ | book
      · simpa only [applyOp, Library.add_book, hgen, hinit] using h
      · simp only [applyOp, Library.add_book, hgen, hinit, Library.save]
        intro q hq
        exact h q hq
  | addBorrower n e =>
    rcases hgen : (generate_id "USER" (keysOf s.borrowers)).1 with _ | rid
    · simpa only [applyOp, Library.add_borrower, hgen] using h
    · simp only [applyOp, Library.add_borrower, hgen, Library.save]
      intro q hq
      rcases mem_dictSet hq with hq | hq
      · subst hq
        simp [Borrower.init, Borrower.MAX_BOOKS]
      · exact h q hq
  | checkout bid rid =>
    rcases hb : dictGet? s.books bid with _ | b
    · simpa only [applyOp, Library.checkout_book, hb] using h
    · by_cases hav : b.available
      · rcases hr : dictGet? s.borrowers rid with _ | br
        · simpa only [applyOp, Library.checkout_book, hb, hr, hav] using h
        · by_cases hcb : br.can_borrow
          · simp only [applyOp, Library.checkout_book, hb, hr, hav, hcb, Bool.not_true,
              Bool.false_eq_true, if_false, eq_self_iff_true, if_true,
              Borrower.borrow_book, Library.save]
            intro q hq
            rcases mem_dictSet hq with hq | hq
            · subst hq
              have : br.borrowed_books.length < Borrower.MAX_BOOKS := by
                simpa [Borrower.can_borrow] using hcb
              simp only [List.length_append, List.length_singleton]
              omega
            · exact h q hq
          · have hcb' : br.can_borrow = false := by simpa using hcb
            simpa only [applyOp, Library.checkout_book, hb, hr, hav, hcb',
              Bool.not_false, eq_self_iff_true, if_true] using h
      · have hav' : b.available = false := by simpa using hav
        simpa only [applyOp, Library.checkout_book, hb, hav', Bool.not_false,
          eq_self_iff_true, if_true] using h
  | ret bid rid =>
    rcases hb : dictGet? s.books bid with _ | b
    · simpa only [applyOp, Library.return_book, hb] using h
    · rcases hr : dictGet? s.borrowers rid with _ | br
      · simpa only [applyOp, Library.return_book, hb, hr] using h
      · by_cases hm : bid ∈ br.borrowed_books
        · simp only [applyOp, Library.return_book, hb, hr, hm, if_pos,
            Borrower.return_book, Library.save, if_true]
          intro q hq
          rcases mem_dictSet hq with hq | hq
          · subst hq
            have hler := List.length_erase_le bid br.borrowed_books
            have := h _ (mem_of_dictGet?_eq_some hr)
            simp only at this ⊢
            omega
          · exact h q hq
        · simpa only [applyOp, Library.return_book, hb, hr, hm, if_neg,
            if_false] using h

/-- C5: no sequence of library operations pushes a borrower past three
borrowed books, and a checkout attempt for a borrower already holding
three books returns false with the state unchanged. -/
theorem claim_C5 :
    (∀ s, maxLenOK s → ∀ ops, maxLenOK (applyOps s ops)) ∧
    (∀ s bid rid br, dictGet? s.borrowers rid = some br →
      br.borrowed_books.length = 3 →
      Library.checkout_book s bid rid = (false, s)) := by
  constructor
  · intro s hs ops
    induction ops generalizing s with
    | nil => exact hs
    | cons op rest ih => exact ih _ (maxLenOK_applyOp s hs op)
  · intro s bid rid br hr hlen
    rcases hb : dictGet? s.books bid with _ | b
    · simp [Library.checkout_book, hb]
    · by_cases hav : b.available
      · have hcb : br.can_borrow = false := by
          simp [Borrower.can_borrow, hlen, Borrower.MAX_BOOKS]
        simp [Library.checkout_book, hb, hr, hav, hcb]
      · have hav' : b.available = false := by simpa using hav
        simp [Library.checkout_book, hb, hav']

/-- Witness for C5: a concrete run, and a concrete 4th-checkout refusal. -/
theorem claim_C5_witness :
    maxLenOK (applyOps lib3 [Op.addBorrower "Dora" "d@x.com",
      Op.checkout "BOOK_0001" "USER_0003"]) ∧
    Library.checkout_book lib3 "BOOK_0001" "USER_0003" = (false, lib3) :=
  ⟨claim_C5.1 lib3 (by unfold maxLenOK Borrower.MAX_BOOKS; decide)
      [Op.addBorrower "Dora" "d@x.com", Op.checkout "BOOK_0001" "USER_0003"],
   claim_C5.2 lib3 "BOOK_0001" "USER_0003" carol (by decide) (by decide)⟩

/-! ### Claim C3: `checkout_book` -/

/-- C3: `checkout_book` returns false and leaves the whole state unchanged
exactly when the book id is unknown, the book is unavailable, the borrower
id is unknown, or the borrower is at the 3-book limit; otherwise it
appends the book id to that borrower's borrowed list, clears the book's
available flag, persists, and returns true. -/
theorem claim_C3 (s : LibState) (bid rid : String) :
    (checkoutFails s bid rid → Library.checkout_book s bid rid = (false, s)) ∧
    (¬ checkoutFails s bid rid →
      ∃ b br, dictGet? s.books bid = some b ∧ b.available = true ∧
        dictGet? s.borrowers rid = some br ∧
        br.borrowed_books.length < Borrower.MAX_BOOKS ∧
        Library.checkout_book s bid rid =
          (true, Library.save { s with
            books := dictSet s.books bid { b with available := false },
            borrowers := dictSet s.borrowers rid
              { br with borrowed_books := br.borrowed_books ++ [bid] } })) := by
  rcases hb : dictGet? s.books bid with _ | b
  · constructor
    · intro _
      simp [Library.checkout_book, hb]
    · intro hnf
      exact absurd (Or.inl hb) hnf
  · by_cases hav : b.available
    · rcases hr : dictGet? s.borrowers rid with _ | br
      · constructor
        · intro _
          simp [Library.checkout_book, hb, hr, hav]
        · intro hnf
          exact absurd (Or.inr (Or.inr (Or.inl hr))) hnf
      · by_cases hcb : br.borrowed_books.length < Borrower.MAX_BOOKS
        · constructor
          · intro hf
            exfalso
            rcases hf with h | h | h | h
            · rw [hb] at h
              cases h
            · rw [hb] at h
              simp [hav] at h
            · rw [hr] at h
              cases h
            · rw [hr] at h
              simp [Borrower.can_borrow, hcb] at h
          · intro _
            refine ⟨b, br, rfl, hav, rfl, hcb, ?_⟩
            simp [Library.checkout_book, hb, hr, hav, Borrower.can_borrow, hcb,
              Borrower.borrow_book]
        · constructor
          · intro _
            simp [Library.checkout_book, hb, hr, hav, Borrower.can_borrow, hcb]
          · intro hnf
            refine absurd (Or.inr (Or.inr (Or.inr ?_))) hnf
            rw [hr]
            simp [Borrower.can_borrow, hcb]
    · have hav' : b.available = false := by simpa using hav
      constructor
      · intro _
        simp [Library.checkout_book, hb, hav']
      · intro hnf
        refine absurd (Or.inr (Or.inl ?_)) hnf
        rw [hb]
        simp [hav]

/-- Witness for C3: in `lib1` a checkout of an unknown book id fails with
the state untouched, and a legitimate checkout succeeds with the described
state. -/
theorem claim_C3_witness :
    Library.checkout_book lib1 "BOOK_0002" "USER_0001" = (false, lib1) ∧
    (∃ b br, dictGet? lib1.books "BOOK_0001" = some b ∧ b.available = true ∧
      dictGet? lib1.borrowers "USER_0001" = some br ∧
      br.borrowed_books.length < Borrower.MAX_BOOKS ∧
      Library.checkout_book lib1 "BOOK_0001" "USER_0001" =
        (true, Library.save { lib1 with
          books := dictSet lib1.books "BOOK_0001" { b with available := false },
          borrowers := dictSet lib1.borrowers "USER_0001"
            { br with borrowed_books := br.borrowed_books ++ ["BOOK_0001"] } })) :=
  ⟨(claim_C3 lib1 "BOOK_0002" "USER_0001").1 (Or.inl (by decide)),
   (claim_C3 lib1 "BOOK_0001" "USER_0001").2 (by unfold checkoutFails; decide)⟩

/-! ### Claim C4: `return_book` -/

/-- C4: `return_book` returns false with no mutation when the book or
borrower id is unknown or the book id is not in that specific borrower's
borrowed list (in particular when some other borrower holds the book);
otherwise it removes the book id from the borrower's list, sets the book
available, persists, and returns true. -/
theorem claim_C4 (s : LibState) (bid rid : String) :
    (returnFails s bid rid → Library.return_book s bid rid = (false, s)) ∧
    (¬ returnFails s bid rid →
      ∃ b br, dictGet? s.books bid = some b ∧ dictGet? s.borrowers rid = some br ∧
        bid ∈ br.borrowed_books ∧
        Library.return_book s bid rid =
          (true, Library.save { s with
            books := dictSet s.books bid { b with available := true },
            borrowers := dictSet s.borrowers rid
              { br with borrowed_books := br.borrowed_books.erase bid } })) := by
  rcases hb : dictGet? s.books bid with _ | b
  · constructor
    · intro _
      simp [Library.return_book, hb]
    · intro hnf
      exact absurd (Or.inl hb) hnf
  · rcases hr : dictGet? s.borrowers rid with _ | br
    · constructor
      · intro _
        simp [Library.return_book, hb, hr]
      · intro hnf
        exact absurd (Or.inr (Or.inl hr)) hnf
    · by_cases hm : bid ∈ br.borrowed_books
      · constructor
        · intro hf
          exfalso
          rcases hf with h | h | h
          · rw [hb] at h
            cases h
          · rw [hr] at h
            cases h
          · rw [hr] at h
            simp [hm] at h
        · intro _
          refine ⟨b, br, rfl, rfl, hm, ?_⟩
          simp [Library.return_book, hb, hr, hm, Borrower.return_book]
      · constructor
        · intro _
          simp [Library.return_book, hb, hr, hm]
        · intro hnf
          refine absurd (Or.inr (Or.inr ?_)) hnf
          rw [hr]
          simp [hm]

/-- Witness for C4: in `lib2` (where Bob holds `BOOK_0001`) returning the
book against Alice's record fails with no mutation, and returning it
against Bob's record succeeds. -/
theorem claim_C4_witness :
    Library.return_book lib2 "BOOK_0001" "USER_0001" = (false, lib2) ∧
    (∃ b br, dictGet? lib2.books "BOOK_0001" = some b ∧
      dictGet? lib2.borrowers "USER_0002" = some br ∧
      "BOOK_0001" ∈ br.borrowed_books ∧
      Library.return_book lib2 "BOOK_0001" "USER_0002" =
        (true, Library.save { lib2 with
          books := dictSet lib2.books "BOOK_0001" { b with available := true },
          borrowers := dictSet lib2.borrowers "USER_0002"
            { br with borrowed_books := br.borrowed_books.erase "BOOK_0001" } })) :=
  ⟨(claim_C4 lib2 "BOOK_0001" "USER_0001").1
      (Or.inr (Or.inr (by decide))),
   (claim_C4 lib2 "BOOK_0001" "USER_0002").2 (by unfold returnFails; decide)⟩

/-! ### Claim C6: genre validation -/

/-- C6: constructing a `Book` succeeds exactly for genres in the fixed
enumeration; an invalid genre makes `add_book` raise `ValueError`, with
the state (collections and persisted documents alike) unchanged. -/
theorem claim_C6 :
    (∀ i t a g av, (∃ b, Book.init i t a g av = some b) ↔ g ∈ Book.GENRES) ∧
    (∀ s t a g, g ∉ Book.GENRES →
      Library.add_book s t a g = .error .valueError ∧
      applyOp s (.addBook t a g) = s) := by
  constructor
  · intro i t a g av
    constructor
    · rintro ⟨b, hb⟩
      by_contra hg
      simp [Book.init, hg] at hb
    · intro hg
      exact ⟨⟨i, t, a, g, av⟩, by simp [Book.init, hg]⟩
  · intro s t a g hg
    have herr : Library.add_book s t a g = .error .valueError := by
      unfold Library.add_book
      rcases (generate_id "BOOK" (keysOf s.books)).1 with _ | bid
      · rfl
      · simp [Book.init, hg]
    exact ⟨herr, by simp [applyOp, herr]⟩

/-- Witness for C6 at the invalid genre string `"Cooking"`. -/
theorem claim_C6_witness :
    ((∃ b, Book.init "BOOK_0001" "T" "A" "Cooking" true = some b) ↔
      "Cooking" ∈ Book.GENRES) ∧
    (Library.add_book lib1 "T" "A" "Cooking" = .error .valueError ∧
      applyOp lib1 (.addBook "T" "A" "Cooking") = lib1) :=
  ⟨claim_C6.1 "BOOK_0001" "T" "A" "Cooking" true,
   claim_C6.2 lib1 "T" "A" "Cooking" (by decide)⟩

/-! ### Claim C7: serialization round trip -/

/-- C7: `from_dict (to_dict x) = x` for `Book` (any constructible book,
i.e. one whose genre passed validation — deserialization re-validates it)
and for every `Borrower`. -/
theorem claim_C7 :
    (∀ b : Book, b.genre ∈ Book.GENRES → Book.from_dict b.to_dict = some b) ∧
    (∀ br : Borrower, Borrower.from_dict br.to_dict = some br) := by
  constructor
  · intro b hg
    obtain ⟨i, t, a, g, av⟩ := b
    simp only at hg
    simp [Book.from_dict, Book.to_dict, dictGet?, Book.init, hg]
  · intro br
    obtain ⟨i, n, e, l⟩ := br
    rcases l with _ | ⟨x, t⟩ <;>
      simp [Borrower.from_dict, Borrower.to_dict, dictGet?, Borrower.init]

/-- Witness for C7 at a concrete book and borrower. -/
theorem claim_C7_witness :
    Book.from_dict dune.to_dict = some dune ∧
    Borrower.from_dict bob.to_dict = some bob :=
  ⟨claim_C7.1 dune (by decide), claim_C7.2 bob⟩

/-! ### Claim C8: `search_books` -/

theorem matchItemGo_eq_ok (item : Dict) (criteria : List (String × String))
    (h : ∀ c ∈ criteria, ∀ v, dictGet? item c.1 = some v → ∃ w, v = .str w) :
    ∀ acc, matchItemGo item acc criteria = .ok (acc && matchesB item criteria) := by
  induction criteria with
  | nil =>
    intro acc
    simp [matchItemGo, matchesB]
  | cons c rest ih =>
    intro acc
    obtain ⟨k, v⟩ := c
    rcases hg : dictGet? item k with _ | x
    · rw [show matchItemGo item acc ((k, v) :: rest) = matchItemGo item false rest from
        by simp [matchItemGo, hg]]
      rw [ih (fun c hc => h c (List.mem_cons_of_mem _ hc)) false]
      simp [matchesB, hg]
    · obtain ⟨w, hw⟩ := h (k, v) (List.mem_cons_self _ _) x hg
      subst hw
      rw [show matchItemGo item acc ((k, v) :: rest)
          = matchItemGo item (acc && (w.toLower = v.toLower : Bool)) rest from
        by simp [matchItemGo, hg, lowerOf]]
      rw [ih (fun c hc => h c (List.mem_cons_of_mem _ hc))]
      simp [matchesB, hg, Bool.and_assoc]

theorem search_items_eq_ok (criteria : List (String × String)) (items : List Dict)
    (h : ∀ item ∈ items, ∀ c ∈ criteria, ∀ v, dictGet? item c.1 = some v → ∃ w, v = .str w) :
    search_items criteria items = .ok (items.filter (fun item => matchesB item criteria)) := by
  induction items with
  | nil => simp [search_items]
  | cons item rest ih =>
    have h1 := matchItemGo_eq_ok item criteria (h item (List.mem_cons_self _ _)) true
    have h2 := ih (fun it hit => h it (List.mem_cons_of_mem _ hit))
    rcases hm : matchesB item criteria with _ | _ <;>
      simp [search_items, h1, h2, hm, List.filter_cons, Bind.bind, Except.bind]

/-- C8 (amended): when every criterion addresses string-valued fields of
the serialized books (keys among `book_id`, `title`, `author`, `genre`, or
keys absent from the dict), `search_books` returns exactly the serialized
dicts — not `Book` objects — matching every criterion case-insensitively;
an absent key excludes the book without raising, and empty criteria
return all books.  (A criterion on the boolean `available` field raises
`AttributeError` instead — see the counterexample.) -/
theorem claim_C8 (s : LibState) (criteria : List (String × String))
    (h : ∀ p ∈ s.books, ∀ c ∈ criteria, ∀ v,
      dictGet? (Book.to_dict p.2) c.1 = some v → ∃ w, v = .str w) :
    Library.search_books s criteria =
      .ok ((s.books.map (fun p => p.2.to_dict)).filter (fun d => matchesB d criteria)) ∧
    Library.search_books s [] = .ok (s.books.map (fun p => p.2.to_dict)) := by
  constructor
  · unfold Library.search_books
    apply search_items_eq_ok
    intro item hit c hc v hv
    obtain ⟨p, hp, rfl⟩ := List.mem_map.mp hit
    exact h p hp c hc v hv
  · unfold Library.search_books
    rw [search_items_eq_ok [] _ (fun it _ c hc => absurd hc (List.not_mem_nil c))]
    simp [matchesB]

/-- Counterexample to C8 as stated: searching `lib1` on the boolean field
`available` raises `AttributeError` (Python calls `.lower()` on a `bool`),
so `search_books` does not return a list for every criteria mapping. -/
theorem claim_C8_counterexample :
    Library.search_books lib1 [("available", "true")] = .error .attributeError := rfl

/-- Witness for C8 at a concrete genre search (note the lowercase query
against the stored `"Science"`). -/
theorem claim_C8_witness :
    Library.search_books lib1 [("genre", "science")] =
      .ok ((lib1.books.map (fun p => p.2.to_dict)).filter
        (fun d => matchesB d [("genre", "science")])) ∧
    Library.search_books lib1 [] = .ok (lib1.books.map (fun p => p.2.to_dict)) :=
  claim_C8 lib1 [("genre", "science")] (by
    intro p hp c hc v hv
    simp only [lib1, List.mem_singleton] at hp
    subst hp
    simp only [List.mem_singleton] at hc
    subst hc
    have hx : dictGet? (Book.to_dict dune) "genre" = some (.str "Science") := by decide
    rw [hx] at hv
    injection hv with hv
    exact ⟨"Science", hv.symm⟩)

/-! ### Claim C9: `generate_id` and its in-place sort -/

theorem generate_id_snd (pre : String) (l : List String) :
    (generate_id pre l).2 = List.insertionSort (· ≤ ·) l := by
  rcases hl : (List.insertionSort (· ≤ ·) l).getLast? with _ | last
  · simp only [generate_id, hl]
  · rcases hp : parseNat? (lastFour last) with _ | m <;> simp only [generate_id, hl, hp]

/-- Counterexample to C9 as stated: `generate_id` sorts its `existing_ids`
argument in place (`existing_ids.sort()`), so the caller's list is mutated
whenever it was not already sorted. -/
theorem claim_C9_counterexample :
    (generate_id "BOOK" ["BOOK_0002", "BOOK_0001"]).2 ≠ ["BOOK_0002", "BOOK_0001"] := by
  rw [generate_id_snd]
  have hlt : "BOOK_0001" < "BOOK_0002" := String.lt_iff_toList_lt.mpr (by decide)
  have hnle : ¬ ("BOOK_0002" ≤ "BOOK_0001") := not_le.mpr hlt
  simp only [List.insertionSort, List.orderedInsert, if_neg hnle]
  decide

/-- C9 (amended): `generate_id` has no side effect other than sorting
`existing_ids` in place: after the call the list is a sorted permutation
of its previous contents, and the whole result depends only on the
multiset of ids (permuting the input changes nothing). -/
theorem claim_C9 (pre : String) (ids ids' : List String) (h : ids.Perm ids') :
    (generate_id pre ids).2.Perm ids ∧
    List.Sorted (· ≤ ·) (generate_id pre ids).2 ∧
    generate_id pre ids = generate_id pre ids' := by
  refine ⟨?_, ?_, ?_⟩
  · rw [generate_id_snd]
    exact List.perm_insertionSort _ ids
  · rw [generate_id_snd]
    exact List.sorted_insertionSort _ ids
  · have hs : List.insertionSort (· ≤ ·) ids = List.insertionSort (· ≤ ·) ids' :=
      List.eq_of_perm_of_sorted
        ((List.perm_insertionSort _ ids).trans (h.trans (List.perm_insertionSort _ ids').symm))
        (List.sorted_insertionSort _ ids) (List.sorted_insertionSort _ ids')
    unfold generate_id
    rw [hs]

/-- Witness for C9 on a concrete two-element list and a permutation of it. -/
theorem claim_C9_witness :
    (generate_id "BOOK" ["BOOK_0002", "BOOK_0001"]).2.Perm ["BOOK_0002", "BOOK_0001"] ∧
    List.Sorted (· ≤ ·) (generate_id "BOOK" ["BOOK_0002", "BOOK_0001"]).2 ∧
    generate_id "BOOK" ["BOOK_0002", "BOOK_0001"]
      = generate_id "BOOK" ["BOOK_0001", "BOOK_0002"] :=
  claim_C9 "BOOK" ["BOOK_0002", "BOOK_0001"] ["BOOK_0001", "BOOK_0002"] (by decide)

/-! ### Claim C10: freshness of generated ids

The development below relates the zero-padded decimal suffixes to the
lexicographic string order used by the in-place sort: on well-formed id
lists, the lexicographically greatest id carries the numerically greatest
suffix, so suffix-of-max plus one is fresh. -/

theorem digitChar_toNat : ∀ d < 10, (digitChar d).toNat = 48 + d := by decide

theorem isDigitChar_digitChar : ∀ d < 10, isDigitChar (digitChar d) = true := by decide

theorem toDecimal_lt {n : Nat} (h : n < 10) : toDecimal n = [digitChar n] := by
  unfold toDecimal
  simp [h]

theorem toDecimal_ge {n : Nat} (h : ¬ n < 10) :
    toDecimal n = toDecimal (n / 10) ++ [digitChar (n % 10)] := by
  conv_lhs => unfold toDecimal
  simp [h]

theorem toDecimal_ne_nil (n : Nat) : toDecimal n ≠ [] := by
  by_cases h : n < 10
  · rw [toDecimal_lt h]
    simp
  · rw [toDecimal_ge h]
    simp

theorem toDecimal_digits (n : Nat) : ∀ c ∈ toDecimal n, isDigitChar c = true := by
  induction n using Nat.strong_induction_on with
  | _ n ih =>
    by_cases h : n < 10
    · rw [toDecimal_lt h]
      intro c hc
      simp only [List.mem_singleton] at hc
      subst hc
      exact isDigitChar_digitChar n h
    · rw [toDecimal_ge h]
      intro c hc
      rcases List.mem_append.mp hc with hc | hc
      · exact ih (n / 10) (Nat.div_lt_self (by omega) (by omega)) c hc
      · simp only [List.mem_singleton] at hc
        subst hc
        exact isDigitChar_digitChar _ (Nat.mod_lt _ (by omega))

theorem toDecimal_length_le {n k : Nat} (hk : 1 ≤ k) (h : n < 10 ^ k) :
    (toDecimal n).length ≤ k := by
  induction n using Nat.strong_induction_on generalizing k with
  | _ n ih =>
    by_cases h10 : n < 10
    · rw [toDecimal_lt h10]
      simpa using hk
    · rw [toDecimal_ge h10]
      have hk2 : 2 ≤ k := by
        by_contra hlt
        have hk1 : k = 1 := by omega
        subst hk1
        simp only [pow_one] at h
        omega
      have hpow : 10 ^ (k - 1) * 10 = 10 ^ k := by
        rw [← pow_succ]
        congr 1
        omega
      have hdiv : n / 10 < 10 ^ (k - 1) := by
        rw [Nat.div_lt_iff_lt_mul (by omega : 0 < 10)]
        omega
      have := ih (n / 10) (Nat.div_lt_self (by omega) (by omega)) (by omega : 1 ≤ k - 1) hdiv
      simp only [List.length_append, List.length_singleton]
      omega

theorem valFrom_append (a : Nat) (l1 l2 : List Char) :
    valFrom a (l1 ++ l2) = valFrom (valFrom a l1) l2 := by
  induction l1 generalizing a with
  | nil => rfl
  | cons c t ih =>
    rw [List.cons_append,
      show valFrom a (c :: (t ++ l2)) = valFrom (a * 10 + (c.toNat - 48)) (t ++ l2) from rfl,
      ih, show valFrom a (c :: t) = valFrom (a * 10 + (c.toNat - 48)) t from rfl]

theorem valFrom_eq (a : Nat) (l : List Char) :
    valFrom a l = a * 10 ^ l.length + valFrom 0 l := by
  induction l generalizing a with
  | nil =>
    rw [show valFrom a ([] : List Char) = a from rfl,
      show valFrom 0 ([] : List Char) = 0 from rfl]
    simp
  | cons c t ih =>
    rw [show valFrom a (c :: t) = valFrom (a * 10 + (c.toNat - 48)) t from rfl,
      show valFrom 0 (c :: t) = valFrom (0 * 10 + (c.toNat - 48)) t from rfl]
    rw [ih, ih (0 * 10 + (c.toNat - 48))]
    simp only [List.length_cons, pow_succ]
    ring

theorem valFrom_lt (l : List Char) (hd : ∀ c ∈ l, isDigitChar c = true) :
    valFrom 0 l < 10 ^ l.length := by
  induction l with
  | nil =>
    rw [show valFrom 0 ([] : List Char) = 0 from rfl]
    simp
  | cons c t ih =>
    have hc := hd c (List.mem_cons_self _ _)
    have hdig : c.toNat - 48 ≤ 9 := by
      simp only [isDigitChar, Bool.and_eq_true, decide_eq_true_eq] at hc
      omega
    have ht := ih (fun c hc => hd c (List.mem_cons_of_mem _ hc))
    rw [show valFrom 0 (c :: t) = valFrom (0 * 10 + (c.toNat - 48)) t from rfl, valFrom_eq]

    have h1 : (c.toNat - 48) * 10 ^ t.length ≤ 9 * 10 ^ t.length :=
      Nat.mul_le_mul_right _ hdig
    simp only [List.length_cons, pow_succ, Nat.zero_mul, Nat.zero_add]
    omega

theorem valFrom_toDecimal (n : Nat) : valFrom 0 (toDecimal n) = n := by
  induction n using Nat.strong_induction_on with
  | _ n ih =>
    by_cases h : n < 10
    · rw [toDecimal_lt h]
      have hd := digitChar_toNat n h
      rw [show valFrom 0 [digitChar n]
          = valFrom (0 * 10 + ((digitChar n).toNat - 48)) ([] : List Char) from rfl,
        show valFrom (0 * 10 + ((digitChar n).toNat - 48)) ([] : List Char)
          = 0 * 10 + ((digitChar n).toNat - 48) from rfl, hd]
      omega
    · rw [toDecimal_ge h, valFrom_append]
      have h1 := ih (n / 10) (Nat.div_lt_self (by omega) (by omega))
      have hd := digitChar_toNat (n % 10) (Nat.mod_lt _ (by omega))
      rw [h1]
      rw [show valFrom (n / 10) [digitChar (n % 10)]
          = valFrom (n / 10 * 10 + ((digitChar (n % 10)).toNat - 48)) ([] : List Char) from rfl,
        show valFrom (n / 10 * 10 + ((digitChar (n % 10)).toNat - 48)) ([] : List Char)
          = n / 10 * 10 + ((digitChar (n % 10)).toNat - 48) from rfl, hd]
      omega

theorem padChars_length {n : Nat} (h : n < 10000) : (padChars n).length = 4 := by
  have hle : (toDecimal n).length ≤ 4 :=
    toDecimal_length_le (by omega)
      (by rw [show (10 : Nat) ^ 4 = 10000 from by norm_num]; exact h)
  simp only [padChars, List.length_append, List.length_replicate]
  omega

theorem padChars_digits (n : Nat) : ∀ c ∈ padChars n, isDigitChar c = true := by
  intro c hc
  rcases List.mem_append.mp hc with hc | hc
  · rw [List.eq_of_mem_replicate hc]
    decide
  · exact toDecimal_digits n c hc

theorem valFrom_replicate_zero (k : Nat) : valFrom 0 (List.replicate k '0') = 0 := by
  induction k with
  | zero => rfl
  | succ k ih =>
    rw [List.replicate_succ,
      show valFrom 0 ('0' :: List.replicate k '0')
        = valFrom (0 * 10 + ('0'.toNat - 48)) (List.replicate k '0') from rfl]
    simpa using ih

theorem valFrom_padChars (n : Nat) : valFrom 0 (padChars n) = n := by
  rw [padChars, valFrom_append, valFrom_replicate_zero, valFrom_toDecimal]

theorem padChars_inj {a b : Nat} (h : padChars a = padChars b) : a = b := by
  have ha := valFrom_padChars a
  rw [h, valFrom_padChars] at ha
  omega

theorem char_lt_of_toNat_lt {c d : Char} (h : c.toNat < d.toNat) : c < d := h

theorem char_eq_of_toNat_eq {c d : Char} (h : c.toNat = d.toNat) : c = d := by
  apply Char.ext
  exact UInt32.toNat.inj h

theorem lex_append_same {r : Char → Char → Prop} (p : List Char) {l1 l2 : List Char}
    (h : List.Lex r l1 l2) : List.Lex r (p ++ l1) (p ++ l2) := by
  induction p with
  | nil => exact h
  | cons c t ih => exact List.Lex.cons ih

theorem lex_of_val_lt : ∀ (l1 l2 : List Char), l1.length = l2.length →
    (∀ c ∈ l1, isDigitChar c = true) → (∀ c ∈ l2, isDigitChar c = true) →
    valFrom 0 l1 < valFrom 0 l2 → List.Lex (· < ·) l1 l2 := by
  intro l1
  induction l1 with
  | nil =>
    intro l2 hlen _ _ hv
    have hl2 : l2 = [] := List.eq_nil_of_length_eq_zero hlen.symm
    subst hl2
    exact absurd hv (by simp)
  | cons c1 t1 ih =>
    intro l2 hlen h1 h2 hv
    rcases l2 with _ | ⟨c2, t2⟩
    · simp at hlen
    · have hlent : t1.length = t2.length := by simpa using hlen
      have hc1 := h1 c1 (List.mem_cons_self _ _)
      have hc2 := h2 c2 (List.mem_cons_self _ _)
      simp only [isDigitChar, Bool.and_eq_true, decide_eq_true_eq] at hc1 hc2
      have hv1 : valFrom 0 (c1 :: t1)
          = (c1.toNat - 48) * 10 ^ t1.length + valFrom 0 t1 := by
        rw [show valFrom 0 (c1 :: t1) = valFrom (0 * 10 + (c1.toNat - 48)) t1 from rfl,
          valFrom_eq]
        simp only [Nat.zero_mul, Nat.zero_add]
      have hv2 : valFrom 0 (c2 :: t2)
          = (c2.toNat - 48) * 10 ^ t2.length + valFrom 0 t2 := by
        rw [show valFrom 0 (c2 :: t2) = valFrom (0 * 10 + (c2.toNat - 48)) t2 from rfl,
          valFrom_eq]
        simp only [Nat.zero_mul, Nat.zero_add]
      have hb1 : valFrom 0 t1 < 10 ^ t1.length :=
        valFrom_lt t1 (fun c hc => h1 c (List.mem_cons_of_mem _ hc))
      have hb2 : valFrom 0 t2 < 10 ^ t2.length :=
        valFrom_lt t2 (fun c hc => h2 c (List.mem_cons_of_mem _ hc))
      rcases Nat.lt_trichotomy (c1.toNat - 48) (c2.toNat - 48) with hlt | heq | hgt
      · exact List.Lex.rel (char_lt_of_toNat_lt (by omega))
      · have hceq : c1 = c2 := char_eq_of_toNat_eq (by omega)
        subst hceq
        apply List.Lex.cons
        apply ih t2 hlent (fun c hc => h1 c (List.mem_cons_of_mem _ hc))
          (fun c hc => h2 c (List.mem_cons_of_mem _ hc))
        rw [hv1, hv2, hlent] at hv
        omega
      · exfalso
        have hstep : ((c2.toNat - 48) + 1) * 10 ^ t1.length
            ≤ (c1.toNat - 48) * 10 ^ t1.length :=
          Nat.mul_le_mul_right _ (by omega)
        have hexp : ((c2.toNat - 48) + 1) * 10 ^ t1.length
            = (c2.toNat - 48) * 10 ^ t1.length + 10 ^ t1.length := by ring
        rw [hv1, hv2, ← hlent] at hv
        rw [← hlent] at hb2
        omega

theorem padChars_lex {a b : Nat} (ha : a < 10000) (hb : b < 10000) (hab : a < b) :
    List.Lex (· < ·) (padChars a) (padChars b) :=
  lex_of_val_lt _ _ (by rw [padChars_length ha, padChars_length hb])
    (padChars_digits a) (padChars_digits b)
    (by rw [valFrom_padChars, valFrom_padChars]; exact hab)

theorem idStr_data (pre : String) (n : Nat) :
    (pre ++ "_" ++ pad4 n).data = (pre.data ++ ['_']) ++ padChars n := by
  simp [String.data_append, pad4]

theorem idStr_lt (pre : String) {a b : Nat} (ha : a < 10000) (hb : b < 10000)
    (hab : a < b) : (pre ++ "_" ++ pad4 a) < (pre ++ "_" ++ pad4 b) := by
  rw [String.lt_iff_toList_lt]
  show List.Lex (· < ·) (pre ++ "_" ++ pad4 a).data (pre ++ "_" ++ pad4 b).data
  rw [idStr_data, idStr_data]
  exact lex_append_same _ (padChars_lex ha hb hab)

theorem sorted_le_getLast? {l : List String} (hs : List.Sorted (· ≤ ·) l) {x y : String}
    (hx : x ∈ l) (hy : l.getLast? = some y) : x ≤ y := by
  induction l with
  | nil => cases hx
  | cons a t ih =>
    rcases t with _ | ⟨b, t'⟩
    · simp only [List.getLast?_singleton, Option.some.injEq] at hy
      simp only [List.mem_singleton] at hx
      rw [hx, hy]
    · rw [List.getLast?_cons_cons] at hy
      rcases List.mem_cons.mp hx with rfl | hx'
      · have hne : (b :: t') ≠ [] := by simp
        have hym : y ∈ b :: t' := by
          rw [List.getLast?_eq_getLast_of_ne_nil hne] at hy
          injection hy with hy
          rw [← hy]
          exact List.getLast_mem hne
        exact List.rel_of_sorted_cons hs y hym
      · exact ih hs.of_cons hx' hy

theorem lastFour_idStr (pre : String) {n : Nat} (h : n < 10000) :
    lastFour (pre ++ "_" ++ pad4 n) = pad4 n := by
  unfold lastFour
  rw [idStr_data]
  have hlen4 : (padChars n).length = 4 := padChars_length h
  have hlen : ((pre.data ++ ['_']) ++ padChars n).length
      = (pre.data ++ ['_']).length + 4 := by
    simp [List.length_append, hlen4]
  rw [hlen]
  have harith : (pre.data ++ ['_']).length + 4 - 4 = (pre.data ++ ['_']).length := by omega
  rw [harith, List.drop_left]
  rfl

theorem parseNat?_pad4 {n : Nat} (h : n < 10000) : parseNat? (pad4 n) = some n := by
  unfold parseNat?
  have hne : (pad4 n).data ≠ [] := by
    show padChars n ≠ []
    intro hnil
    have := padChars_length h
    rw [hnil] at this
    simp at this
  have hdig : (pad4 n).data.all isDigitChar = true := by
    rw [List.all_eq_true]
    intro c hc
    exact padChars_digits n c hc
  rw [if_pos ⟨hne, hdig⟩]
  exact congrArg some (valFrom_padChars n)

theorem generate_id_fresh {pre : String} {ids : List String} (h : wfIds pre ids) :
    ∃ r, (generate_id pre ids).1 = some r ∧ r ∉ ids := by
  rcases hl : (List.insertionSort (· ≤ ·) ids).getLast? with _ | last
  · have hnil : List.insertionSort (· ≤ ·) ids = [] := by
      cases hsort : List.insertionSort (· ≤ ·) ids with
      | nil => rfl
      | cons a t =>
        rw [hsort, List.getLast?_eq_getLast_of_ne_nil (by simp)] at hl
        cases hl
    have hids : ids = [] := by
      have hperm := List.perm_insertionSort (· ≤ ·) ids
      rw [hnil] at hperm
      exact hperm.symm.eq_nil
    subst hids
    refine ⟨pre ++ "_" ++ pad4 1, ?_, by simp⟩
    simp only [generate_id, hl]
  · have hne : List.insertionSort (· ≤ ·) ids ≠ [] := by
      intro hn
      rw [hn] at hl
      cases hl
    have hmem_sorted : last ∈ List.insertionSort (· ≤ ·) ids := by
      rw [List.getLast?_eq_getLast_of_ne_nil hne] at hl
      injection hl with hl
      rw [← hl]
      exact List.getLast_mem hne
    have hmem : last ∈ ids := (List.perm_insertionSort _ ids).subset hmem_sorted
    obtain ⟨m, hm, hlast⟩ := h last hmem
    subst hlast
    refine ⟨pre ++ "_" ++ pad4 (m + 1), ?_, ?_⟩
    · simp only [generate_id, hl, lastFour_idStr pre hm, parseNat?_pad4 hm]
    · intro hin
      obtain ⟨n, hn, heq⟩ := h _ hin
      have hpad : padChars (m + 1) = padChars n := by
        have hdata := congrArg String.data heq
        rw [idStr_data, idStr_data] at hdata
        exact List.append_cancel_left hdata
      have hmn : m + 1 = n := padChars_inj hpad
      rw [heq] at hin
      have hin_sorted : (pre ++ "_" ++ pad4 n) ∈ List.insertionSort (· ≤ ·) ids :=
        (List.perm_insertionSort _ ids).symm.subset hin
      have hle : (pre ++ "_" ++ pad4 n) ≤ (pre ++ "_" ++ pad4 m) :=
        sorted_le_getLast? (List.sorted_insertionSort _ ids) hin_sorted hl
      have hlt : (pre ++ "_" ++ pad4 m) < (pre ++ "_" ++ pad4 n) :=
        idStr_lt pre hm hn (by omega)
      exact absurd hle (not_le.mpr hlt)

theorem dictSet_append_of_not_mem {α : Type} {d : List (String × α)} {k : String}
    (h : k ∉ keysOf d) (v : α) : dictSet d k v = d ++ [(k, v)] := by
  induction d with
  | nil => rfl
  | cons q t ih =>
    obtain ⟨k0, v0⟩ := q
    simp only [keysOf, List.map_cons, List.mem_cons, not_or] at h
    simp only [dictSet, show k0 ≠ k from fun hk => h.1 hk.symm, if_neg, if_false,
      List.cons_append]
    rw [ih (by simpa [keysOf] using h.2)]

/-- C10: on well-formed id lists (every id is the prefix plus an
underscore plus a 4-digit zero-padded decimal suffix), `generate_id`
returns an id not in the list; consequently `add_book`/`add_borrower`
with well-formed keys insert their new entity under a fresh key, at the
end of the collection. -/
theorem claim_C10 :
    (∀ pre ids, wfIds pre ids → ∃ r, (generate_id pre ids).1 = some r ∧ r ∉ ids) ∧
    (∀ s title author genre, wfIds "BOOK" (keysOf s.books) → genre ∈ Book.GENRES →
      ∃ b s', Library.add_book s title author genre = .ok (b, s') ∧
        b.book_id ∉ keysOf s.books ∧ s'.books = s.books ++ [(b.book_id, b)]) ∧
    (∀ s nm em, wfIds "USER" (keysOf s.borrowers) →
      ∃ br s', Library.add_borrower s nm em = .ok (br, s') ∧
        br.borrower_id ∉ keysOf s.borrowers ∧
        s'.borrowers = s.borrowers ++ [(br.borrower_id, br)]) := by
  refine ⟨fun pre ids h => generate_id_fresh h, ?_, ?_⟩
  · intro s title author genre hwf hg
    obtain ⟨r, hr, hnot⟩ := generate_id_fresh hwf
    refine ⟨⟨r, title, author, genre, true⟩,
      Library.save { s with books := dictSet s.books r ⟨r, title, author, genre, true⟩ },
      ?_, hnot, ?_⟩
    · simp only [Library.add_book, hr, Book.init, if_pos hg]
    · show dictSet s.books r _ = s.books ++ [(r, _)]
      exact dictSet_append_of_not_mem hnot _
  · intro s nm em hwf
    obtain ⟨r, hr, hnot⟩ := generate_id_fresh hwf
    refine ⟨Borrower.init r nm em none,
      Library.save { s with borrowers := dictSet s.borrowers r (Borrower.init r nm em none) },
      ?_, hnot, ?_⟩
    · simp only [Library.add_borrower, hr]
    · show dictSet s.borrowers r _ = s.borrowers ++ [(r, _)]
      exact dictSet_append_of_not_mem hnot _

theorem pad4_one : pad4 1 = "0001" := by
  rw [pad4, padChars, toDecimal_lt (by omega)]
  decide

/-- Witness for C10 on `lib1` (keys `BOOK_0001` / `USER_0001`). -/
theorem claim_C10_witness :
    (∃ r, (generate_id "BOOK" ["BOOK_0001"]).1 = some r ∧ r ∉ ["BOOK_0001"]) ∧
    (∃ b s', Library.add_book lib1 "T" "A" "Fiction" = .ok (b, s') ∧
      b.book_id ∉ keysOf lib1.books ∧ s'.books = lib1.books ++ [(b.book_id, b)]) ∧
    (∃ br s', Library.add_borrower lib1 "Dora" "d@x.com" = .ok (br, s') ∧
      br.borrower_id ∉ keysOf lib1.borrowers ∧
      s'.borrowers = lib1.borrowers ++ [(br.borrower_id, br)]) :=
  ⟨claim_C10.1 "BOOK" ["BOOK_0001"] (by
      intro i hi
      simp only [List.mem_singleton] at hi
      subst hi
      exact ⟨1, by omega, by rw [pad4_one]; decide⟩),
   claim_C10.2.1 lib1 "T" "A" "Fiction" (by
      intro i hi
      simp only [lib1, keysOf, List.map_cons, List.map_nil, List.mem_singleton] at hi
      subst hi
      exact ⟨1, by omega, by rw [pad4_one]; decide⟩) (by decide),
   claim_C10.2.2 lib1 "Dora" "d@x.com" (by
      intro i hi
      simp only [lib1, keysOf, List.map_cons, List.map_nil, List.mem_singleton] at hi
      subst hi
      exact ⟨1, by omega, by rw [pad4_one]; decide⟩)⟩

/-! ### Claim C1: the load path stores raw mappings -/

/-- C1 evidence: `Library.load` assigns the decoded JSON — raw mappings —
to the collections instead of reconstructing `Book`/`Borrower` objects via
`from_dict`, so the very first `checkout_book` after a load raises
`AttributeError` when it reads `.available` on a dict.  (The class
docstring documents `books` as mapping ids to `Book`.)  The absent-file
halves of the claim do hold: a missing document leaves the collection
empty. -/
theorem claim_C1 :
    Library.load_books (some [("BOOK_0001", Book.to_dict dune)]) =
      [("BOOK_0001", BookSlot.raw (Book.to_dict dune))] ∧
    Library.load_borrowers (some [("USER_0001", Borrower.to_dict alice)]) =
      [("USER_0001", BorrowerSlot.raw (Borrower.to_dict alice))] ∧
    Library.checkout_book_loaded
      (Library.load_books (some [("BOOK_0001", Book.to_dict dune)]))
      (Library.load_borrowers (some [("USER_0001", Borrower.to_dict alice)]))
      "BOOK_0001" "USER_0001" = .error .attributeError ∧
    Library.load_books none = [] ∧ Library.load_borrowers none = [] :=
  ⟨rfl, rfl, rfl, rfl, rfl⟩
